import Mathlib

/-! Shallow embedding of the expense-report core of the jet-finances server
(`src/server/index.ts`, the `/api/expenses/export-excel` handler): currency
conversion, category classification, period splitting, the ATS pre-filter and
the month-by-category-by-currency aggregation matrix, with proofs about them.
Amounts are modelled as exact rationals (the TS code uses IEEE doubles, which
the spec acknowledges by phrasing its numeric properties "within
floating-point tolerance"); JS `Date` values are modelled by their calendar
components, with `month` 0-based exactly as returned by
`Date.prototype.getMonth`. -/

namespace JetFinances

section

attribute [local semireducible] Rat.mul Rat.add Rat.inv Rat.sub

/-- Calendar components of a parsed JS `Date`: `getFullYear`, `getMonth`
(0-based, always in `0..11` for a real `Date`) and `getDate` (1-based). -/
structure SDate where
  year : Int
  month : Nat
  day : Nat
deriving DecidableEq

/-- Timestamp order `new Date(a) < new Date(b)` on dates given by calendar
components (lexicographic). -/
def dateLt (a b : SDate) : Prop :=
  a.year < b.year ∨
    (a.year = b.year ∧ (a.month < b.month ∨ (a.month = b.month ∧ a.day < b.day)))

instance (a b : SDate) : Decidable (dateLt a b) := by
  unfold dateLt
  infer_instance

/-- A `YYYY-MM` month key.  The TS code renders it as
`year + "-" + String(month0 + 1).padStart(2, "0")`; `month` here is the
printed 1-based month, so this pair carries exactly the information of the
string (for the 4-digit years of the data the rendering is injective and
lexicographic string order coincides with the order on `(year, month)`). -/
structure MonthKey where
  year : Int
  month : Nat
deriving DecidableEq

/-- One row of the `expenses` table, joined as the export handler sees it:
`flight_date` models `expense.flights?.flt_date`, and `invoice_type_name`
models the enriched `expense.invoice_types?.name` with `""` when the lookup
yields no usable string (the handler falls back to `''` for a missing or
non-string name).  Nullable references are `Option`; the free-text fields use
`""` for null, which is the same JS value-class (falsy) the handler tests. -/
structure Expense where
  id : Int
  exp_type : String
  exp_subtype : String
  exp_amount : Rat
  exp_currency : String
  exp_category : String
  invoice_type_name : String
  exp_invoice : Option Int
  exp_flight : Option Int
  flight_date : Option SDate
  exp_period_start : Option SDate
  exp_period_end : Option SDate
  exp_place : Option String
  created_at : SDate
deriving DecidableEq

/-- ASCII lower-casing, `String.prototype.toLowerCase` (every string the
classifier compares against is ASCII). -/
def strLower (s : String) : String := ⟨s.data.map Char.toLower⟩

/-- Whitespace test for `strTrim`. -/
def isSpaceChar (c : Char) : Bool := c == ' ' || c == '\t' || c == '\n' || c == '\r'

/-- JS `String.prototype.trim`. -/
def strTrim (s : String) : String :=
  ⟨((s.data.dropWhile isSpaceChar).reverse.dropWhile isSpaceChar).reverse⟩

/-- Does the second list start the first one? -/
def beginsWith : List Char → List Char → Bool
  | [], _ => true
  | _ :: _, [] => false
  | a :: as, b :: bs => a == b && beginsWith as bs

/-- Contiguous-substring test (argument order: pattern, then text). -/
def hasSub (pat : List Char) : List Char → Bool
  | [] => pat.isEmpty
  | c :: rest => beginsWith pat (c :: rest) || hasSub pat rest

/-- JS `s.includes(pat)`. -/
def jsIncludes (s pat : String) : Bool := hasSub pat.data s.data

/-- `CURRENCY_RATES.AED_TO_USD` (AED per 1 USD). -/
def AED_TO_USD : Rat := 36735 / 10000

/-- `CURRENCY_RATES.AED_TO_EUR` (AED per 1 EUR). -/
def AED_TO_EUR : Rat := 43119 / 10000

/-- The handler's `convertCurrency`.  The TS `if (fromCurrency === 'EUR')`
block returns only when `toCurrency` is `'AED'` or `'USD'` and otherwise falls
through; the guarded branches below reproduce that control flow.  The falsy
test `!amount || !fromCurrency || !toCurrency` is `amount = 0` or an empty
string here. -/
def convertCurrency (amount : Rat) (fromCurrency toCurrency : String) : Rat :=
  if amount = 0 ∨ fromCurrency = "" ∨ toCurrency = "" then 0
  else if fromCurrency = toCurrency then amount
  else if fromCurrency = "EUR" ∧ toCurrency = "AED" then amount * AED_TO_EUR
  else if fromCurrency = "EUR" ∧ toCurrency = "USD" then amount * AED_TO_EUR / AED_TO_USD
  else if toCurrency = "EUR" then
    (if fromCurrency = "USD" then amount * AED_TO_USD
     else if fromCurrency = "AED" then amount
     else 0) / AED_TO_EUR
  else
    let amountInUSD := if fromCurrency = "AED" then amount / AED_TO_USD else amount
    if toCurrency = "USD" then amountInUSD
    else if toCurrency = "AED" then amountInUSD * AED_TO_USD
    else amount

/-- The ordered first-match-wins rule chain of `getBaseExpenseCategory`,
operating on the already lower-cased `exp_type`. -/
def classifyType (type : String) : Option String :=
  if type == "camo and management" || (jsIncludes type "camo" && jsIncludes type "management") then
    some "CAMO and Management"
  else if type == "crew" then some "Crew"
  else if type == "disbursement fee" || jsIncludes type "disbursement" then some "Disbursement fee"
  else if type == "insurance charge" || jsIncludes type "insurance" then some "Insurance charge"
  else if type == "maintenance" then some "Maintenance"
  else if type == "subscriptions" || jsIncludes type "subscription" then some "Subscriptions"
  else if type == "falconcare" || jsIncludes type "falconcare" || jsIncludes type "falcon care" then
    some "FalconCare"
  else if type == "honeywell" then some "Honeywell"
  else if type == "ground handling" || jsIncludes type "ground handling" || jsIncludes type "groundhandling" then
    some "Ground handling"
  else if type == "fuel" then some "Fuel"
  else if type == "navigation charges" || jsIncludes type "navigation" || jsIncludes type "enroute" then
    some "Navigation charges"
  else if type == "overfly charges" || jsIncludes type "overfly" || jsIncludes type "overflight" then
    some "Overfly charges"
  else if type == "catering" || jsIncludes type "catering" || jsIncludes type "food" then
    some "Catering"
  else if type == "flight planning" || jsIncludes type "flight planning" || jsIncludes type "flightplanning" then
    some "Flight planning"
  else if type == "other charges" || jsIncludes type "other charges" then some "Other charges"
  else none

/-- `getBaseExpenseCategory` from the handler. -/
def getBaseExpenseCategory (e : Expense) : Option String :=
  classifyType (strLower e.exp_type)

/-- `getExpenseCategory` from the handler (base category, with the trimmed
subtype appended when non-empty). -/
def getExpenseCategory (e : Expense) : Option String :=
  let subtype := strTrim e.exp_subtype
  match getBaseExpenseCategory e with
  | none => none
  | some baseCategory =>
    if subtype == "" then some baseCategory else some (baseCategory ++ " - " ++ subtype)

/-- The handler's `NON_FLIGHT_CATEGORIES` constant. -/
def NON_FLIGHT_CATEGORIES : List String :=
  ["CAMO and Management", "Crew", "Disbursement fee", "Insurance charge", "Maintenance",
   "Subscriptions", "Other charges", "FalconCare", "Honeywell"]

/-- `isNonFlightExpense` from the handler. -/
def isNonFlightExpense (e : Expense) : Option Bool :=
  match getBaseExpenseCategory e with
  | none => none
  | some baseCategory => some (NON_FLIGHT_CATEGORIES.contains baseCategory)

/-- Currency defaulting `expense.exp_currency || 'USD'`. -/
def expCurrency (e : Expense) : String :=
  if e.exp_currency = "" then "USD" else e.exp_currency

/-- One element of `splitExpenseByMonths`' result. -/
structure MonthEntry where
  monthKey : MonthKey
  amount : Rat
  currency : String
deriving DecidableEq

/-- The month-key loop of `splitExpenseByMonths` (the handler's category pass
inlines the identical loop): starting at `(year, month0)`, emit `n`
consecutive month keys, stepping `currentMonth`/`currentYear` exactly as the
TS loop does (`currentMonth++, if > 11 reset to 0 and bump the year`). -/
def emitMonths (year : Int) (month : Nat) (amt : Rat) (cur : String) : Nat → List MonthEntry
  | 0 => []
  | n + 1 =>
    ⟨⟨year, month + 1⟩, amt, cur⟩ ::
      (if month + 1 > 11 then emitMonths (year + 1) 0 amt cur n
       else emitMonths year (month + 1) amt cur n)

/-- The naive month-difference formula of spec section 4.3:
`(endYear - startYear) * 12 + (endMonth - startMonth) + 1`. -/
def totalMonthsFormula (ps pe : SDate) : Int :=
  (pe.year - ps.year) * 12 + ((pe.month : Int) - (ps.month : Int)) + 1

/-- The code's `isSingleMonth` test: `endDay === 1` and either
`endMonth === (startMonth + 1) % 12` in the same year, or `endMonth === 0` in
the immediately following year. -/
def isSingleMonthPeriod (ps pe : SDate) : Prop :=
  pe.day = 1 ∧
    ((pe.month = (ps.month + 1) % 12 ∧ pe.year = ps.year) ∨
     (pe.month = 0 ∧ pe.year = ps.year + 1))

instance (ps pe : SDate) : Decidable (isSingleMonthPeriod ps pe) := by
  unfold isSingleMonthPeriod
  infer_instance

/-- `splitExpenseByMonths` from the handler.  The flight branch fires when the
expense has a linked flight whose joined row carries a date; the period branch
fires when both period bounds are set; otherwise the full amount lands in the
month of `created_at` (always present on a DB row, so the `new Date()` 'now'
fallback is not modelled). -/
def splitExpenseByMonths (e : Expense) : List MonthEntry :=
  let amount := e.exp_amount
  let currency := expCurrency e
  match e.exp_flight, e.flight_date with
  | some _, some fd => [⟨⟨fd.year, fd.month + 1⟩, amount, currency⟩]
  | _, _ =>
    match e.exp_period_start, e.exp_period_end with
    | some ps, some pe =>
      let totalMonths : Int :=
        if isSingleMonthPeriod ps pe then 1 else totalMonthsFormula ps pe
      let monthlyAmount := if 0 < totalMonths then amount / (totalMonths : Rat) else amount
      emitMonths ps.year ps.month monthlyAmount currency totalMonths.toNat
    | _, _ => [⟨⟨e.created_at.year, e.created_at.month + 1⟩, amount, currency⟩]

/-! The ATS pre-filter (`reportForATS`): `isPeriodBeforeOctober2025`,
`isDisbursementFee`, `findRelatedDisbursementFees` and the two
exclusion-marking passes over the expense list. -/

/-- `isPeriodBeforeOctober2025`: the period start, when present, is strictly
before the fixed cutoff `new Date('2025-10-01')` (month 9 in 0-based
counting). -/
def isPeriodBeforeOctober2025 (e : Expense) : Bool :=
  match e.exp_period_start with
  | none => false
  | some d => decide (dateLt d ⟨2025, 9, 1⟩)

/-- `isDisbursementFee`: the base category is `Disbursement fee`. -/
def isDisbursementFee (e : Expense) : Bool :=
  getBaseExpenseCategory e == some "Disbursement fee"

/-- One field check of `findRelatedDisbursementFees`: if the reference
expense's field is set the candidate's must equal it, otherwise the
candidate's must be null. -/
def optFieldMatch {α : Type} [DecidableEq α] (a b : Option α) : Bool :=
  match a with
  | some v => b == some v
  | none => b == none

/-- The period check of `findRelatedDisbursementFees`: when the reference
expense has both period bounds the candidate must match both, otherwise the
candidate must have both null. -/
def periodMatch (e exp : Expense) : Bool :=
  match e.exp_period_start, e.exp_period_end with
  | some ps, some pe => exp.exp_period_start == some ps && exp.exp_period_end == some pe
  | _, _ => exp.exp_period_start == none && exp.exp_period_end == none

/-- The four relatedness checks (invoice, flight, period, place) that a
candidate must pass in `findRelatedDisbursementFees`, in source order. -/
def relatedFeeMatch (e exp : Expense) : Bool :=
  optFieldMatch e.exp_invoice exp.exp_invoice &&
  optFieldMatch e.exp_flight exp.exp_flight &&
  periodMatch e exp &&
  optFieldMatch e.exp_place exp.exp_place

/-- `findRelatedDisbursementFees`: all Disbursement-fee expenses in the list
related to the given expense. -/
def findRelatedDisbursementFees (e : Expense) (allExpenses : List Expense) : List Expense :=
  allExpenses.filter (fun exp => isDisbursementFee exp && relatedFeeMatch e exp)

/-- Add one id to the exclusion set (`excludedExpenseIds.add`). -/
def addId (s : Int → Bool) (i : Int) : Int → Bool :=
  fun x => s x || x == i

/-- First ATS pass: mark every expense whose period starts before the
cutoff. -/
def atsPass1 (expenses : List Expense) : Int → Bool :=
  expenses.foldl (fun s e => if isPeriodBeforeOctober2025 e then addId s e.id else s)
    (fun _ => false)

/-- One step of the second ATS pass: if the expense is already marked, mark
all its related disbursement fees. -/
def markRelated (allExpenses : List Expense) (s : Int → Bool) (e : Expense) : Int → Bool :=
  if s e.id then
    (findRelatedDisbursementFees e allExpenses).foldl (fun s f => addId s f.id) s
  else s

/-- Second ATS pass: walk the expense list, marking related disbursement fees
of every already-marked expense (the set grows while the walk is in
progress, exactly as the TS loop mutates `excludedExpenseIds`). -/
def atsPass2 (allExpenses : List Expense) (s : Int → Bool) : Int → Bool :=
  allExpenses.foldl (markRelated allExpenses) s

/-- The ATS filter applied by the handler when `reportForATS` is set. -/
def filterForATS (expenses : List Expense) : List Expense :=
  let s := atsPass2 expenses (atsPass1 expenses)
  expenses.filter (fun e => !(s e.id))

/-! Income detection (`Credit note` / `Charter profit`) and the aggregation
pass of the handler. -/

/-- The lower-cased, trimmed invoice-type name
(`invoiceTypeName.toLowerCase().trim()`). -/
def invoiceTypeNameLower (e : Expense) : String :=
  strTrim (strLower e.invoice_type_name)

/-- `expCategory`, `expense.exp_category || 'expense'`. -/
def expCategoryOf (e : Expense) : String :=
  if e.exp_category = "" then "expense" else e.exp_category

/-- `isCreditNote`: the stored category is `income_credit_note`, or the
invoice-type name contains both "credit" and "note". -/
def isCreditNote (e : Expense) : Bool :=
  expCategoryOf e == "income_credit_note" ||
  (jsIncludes (invoiceTypeNameLower e) "credit" && jsIncludes (invoiceTypeNameLower e) "note")

/-- `isCharterProfit`: the stored category is `income_charter_profit`, or the
invoice-type name contains both "charter" and "profit". -/
def isCharterProfit (e : Expense) : Bool :=
  expCategoryOf e == "income_charter_profit" ||
  (jsIncludes (invoiceTypeNameLower e) "charter" && jsIncludes (invoiceTypeNameLower e) "profit")

/-- One dual-currency cell of the report matrix: the `USD` and `AED`
accumulators. -/
structure Cell where
  USD : Rat
  AED : Rat
deriving DecidableEq

/-- A per-month map of cells, in JS-object insertion order. -/
abbrev CellMap : Type := List (MonthKey × Cell)

/-- A per-category map of per-month cell maps, in JS-object insertion
order. -/
abbrev GroupMap : Type := List (String × CellMap)

/-- Read a cell, defaulting to zeros (`map[k] || { USD: 0, AED: 0 }`). -/
def cellGet (m : CellMap) (k : MonthKey) : Cell :=
  match m.find? (fun p => p.1 == k) with
  | some p => p.2
  | none => ⟨0, 0⟩

/-- Add a dual-currency delta to a cell of the map, creating the key with a
zero cell first when absent (`if (!map[k]) map[k] = {USD:0,AED:0}` followed
by `+=`), preserving insertion order. -/
def cellMapAdd (m : CellMap) (k : MonthKey) (dUSD dAED : Rat) : CellMap :=
  match m with
  | [] => [(k, ⟨dUSD, dAED⟩)]
  | p :: rest =>
    if p.1 == k then (k, ⟨p.2.USD + dUSD, p.2.AED + dAED⟩) :: rest
    else p :: cellMapAdd rest k dUSD dAED

/-- Ensure a category key exists in a group map
(`if (!group[cat]) group[cat] = {}`), preserving insertion order. -/
def groupTouch (g : GroupMap) (c : String) : GroupMap :=
  match g with
  | [] => [(c, [])]
  | p :: rest => if p.1 == c then p :: rest else p :: groupTouch rest c

/-- Read a category's cell map, defaulting to empty. -/
def groupGet (g : GroupMap) (c : String) : CellMap :=
  match g.find? (fun p => p.1 == c) with
  | some p => p.2
  | none => []

/-- Add a dual-currency delta to `group[c][k]`, preserving insertion
order. -/
def groupAdd (g : GroupMap) (c : String) (k : MonthKey) (dUSD dAED : Rat) : GroupMap :=
  match g with
  | [] => [(c, cellMapAdd [] k dUSD dAED)]
  | p :: rest =>
    if p.1 == c then (c, cellMapAdd p.2 k dUSD dAED) :: rest
    else p :: groupAdd rest c k dUSD dAED

/-- The dual-currency deltas added to a cell for a monthly amount in a given
currency: the amount lands in its own column and the converted equivalent in
the other, with unknown currencies routed through `convertCurrency` for both
columns (the four-way `if/else if` chain of the handler, used identically in
the income and category passes). -/
def dualDelta (m : Rat) (c : String) : Rat × Rat :=
  if c = "USD" then (m, convertCurrency m "USD" "AED")
  else if c = "AED" then (convertCurrency m "AED" "USD", m)
  else if c = "EUR" then (convertCurrency m "EUR" "USD", convertCurrency m "EUR" "AED")
  else (convertCurrency m c "USD", convertCurrency m c "AED")

/-- Insertion-ordered set of months touched by any accumulation
(`allMonthsSet`). -/
def addToSet (s : List MonthKey) (k : MonthKey) : List MonthKey :=
  if s.contains k then s else s ++ [k]

/-- The mutable state of the handler's aggregation pass: the two category
group maps, the two income rows and the touched-month set. -/
structure AggState where
  nonFlight : GroupMap
  flight : GroupMap
  creditNote : CellMap
  charterProfit : CellMap
  allMonths : List MonthKey
deriving DecidableEq

/-- The empty aggregation state. -/
def initAggState : AggState := ⟨[], [], [], [], []⟩

/-- One accumulation step of the income pass: add the dual-currency delta of
one split entry into the credit-note row (when `isCN`) or the charter-profit
row, and record the month. -/
def accumIncomeStep (isCN : Bool) (st : AggState) (x : MonthEntry) : AggState :=
  let d := dualDelta x.amount x.currency
  if isCN then
    ⟨st.nonFlight, st.flight, cellMapAdd st.creditNote x.monthKey d.1 d.2, st.charterProfit,
     addToSet st.allMonths x.monthKey⟩
  else
    ⟨st.nonFlight, st.flight, st.creditNote, cellMapAdd st.charterProfit x.monthKey d.1 d.2,
     addToSet st.allMonths x.monthKey⟩

/-- One accumulation step of the category pass: add the dual-currency delta
of one split entry into the category's row in the non-flight or flight group
map, and record the month. -/
def accumCategoryStep (isNF : Bool) (finalCategory : String) (st : AggState) (x : MonthEntry) :
    AggState :=
  let d := dualDelta x.amount x.currency
  if isNF then
    ⟨groupAdd st.nonFlight finalCategory x.monthKey d.1 d.2, st.flight, st.creditNote,
     st.charterProfit, addToSet st.allMonths x.monthKey⟩
  else
    ⟨st.nonFlight, groupAdd st.flight finalCategory x.monthKey d.1 d.2, st.creditNote,
     st.charterProfit, addToSet st.allMonths x.monthKey⟩

/-- The display label used for the category row:
`showSubcategories ? getExpenseCategory(expense) : baseCategory`, with the
handler's `displayCategory || baseCategory` fallback. -/
def finalCategoryOf (showSubcategories : Bool) (e : Expense) (baseCategory : String) : String :=
  (if showSubcategories then getExpenseCategory e else some baseCategory).getD baseCategory

/-- Create the category's key in its group map before the month loop
(`if (!group[finalCategory]) group[finalCategory] = {}`). -/
def touchCategory (isNF : Bool) (cat : String) (st : AggState) : AggState :=
  if isNF then
    ⟨groupTouch st.nonFlight cat, st.flight, st.creditNote, st.charterProfit, st.allMonths⟩
  else
    ⟨st.nonFlight, groupTouch st.flight cat, st.creditNote, st.charterProfit, st.allMonths⟩

/-- The body of the handler's `filteredExpenses.forEach`: income items
(credit note / charter profit) are split by months and accumulated into the
corresponding income row; other expenses are classified (skipped when the
category is null), optionally relabelled with their subtype, and accumulated
into their category's row.  The handler's category pass inlines the same
month computation as `splitExpenseByMonths` with
`monthlyAmount = amount / monthKeys.length`, which agrees with the amounts
already carried by the split entries. -/
def processExpense (showSubcategories : Bool) (st : AggState) (e : Expense) : AggState :=
  if isCreditNote e || isCharterProfit e then
    (splitExpenseByMonths e).foldl (accumIncomeStep (isCreditNote e)) st
  else
    match getBaseExpenseCategory e with
    | none => st
    | some baseCategory =>
      (splitExpenseByMonths e).foldl
        (accumCategoryStep (NON_FLIGHT_CATEGORIES.contains baseCategory)
          (finalCategoryOf showSubcategories e baseCategory))
        (touchCategory (NON_FLIGHT_CATEGORIES.contains baseCategory)
          (finalCategoryOf showSubcategories e baseCategory) st)

/-- The aggregation state after the ATS filter (when requested) and the
`forEach` pass over all expenses. -/
def aggState (expenses : List Expense) (showSubcategories reportForATS : Bool) : AggState :=
  let filtered := if reportForATS then filterForATS expenses else expenses
  filtered.foldl (processExpense showSubcategories) initAggState

/-! Month filtering, category sorting and the assembled report matrix. -/

/-- Sorted-insert used to model `Array.prototype.sort` (the claims proved
here do not depend on the particular stable order, only on the multiset of
rows). -/
def insertSorted {α : Type} (le : α → α → Bool) (x : α) : List α → List α
  | [] => [x]
  | y :: ys => if le x y then x :: y :: ys else y :: insertSorted le x ys

/-- Sort by a boolean comparison via repeated insertion. -/
def sortByLe {α : Type} (le : α → α → Bool) (l : List α) : List α :=
  l.foldr (insertSorted le) []

/-- Order on month keys matching the lexicographic string order of the
rendered `YYYY-MM` keys (4-digit years). -/
def monthKeyLe (a b : MonthKey) : Bool :=
  a.year < b.year || (a.year == b.year && a.month ≤ b.month)

/-- The handler's `CATEGORY_GROUPS` priority table, groups 1-3
concatenated. -/
def CATEGORY_GROUPS_ALL : List String :=
  ["CAMO and Management", "Flight planning", "Subscriptions", "Maintenance", "Insurance charge",
   "Crew", "FalconCare", "Honeywell", "Ground handling", "Fuel", "Navigation charges",
   "Overfly charges", "Catering", "Other charges", "Disbursement fee"]

/-- `getCategorySortOrder`: index in the priority table, 999 when absent. -/
def getCategorySortOrder (category : String) : Nat :=
  match CATEGORY_GROUPS_ALL.findIdx? (fun c => c == category) with
  | some i => i
  | none => 999

/-- Characters before the first occurrence of `" - "`. -/
def baseLabelAux : List Char → List Char
  | [] => []
  | c :: rest =>
    if beginsWith [' ', '-', ' '] (c :: rest) then [] else c :: baseLabelAux rest

/-- The base-category label before any `" - "` subtype suffix
(`category.split(' - ')[0]`). -/
def baseLabel (category : String) : String :=
  ⟨baseLabelAux category.data⟩

/-- Tag distinguishing the two group maps a category row may come from. -/
inductive RowSource
  | nonFlight
  | flight
deriving DecidableEq

/-- The sort comparator of the handler: priority-table order of the base
labels, ties broken by `localeCompare` on the full labels (modelled by
lexicographic string order). -/
def categoryLe (a b : String × RowSource) : Bool :=
  let oa := getCategorySortOrder (baseLabel a.1)
  let ob := getCategorySortOrder (baseLabel b.1)
  if oa == ob then !(decide (b.1 < a.1)) else oa < ob

/-- All category rows of both groups, tagged with their source map and
sorted by the handler's comparator. -/
def allCategoriesSorted (st : AggState) : List (String × RowSource) :=
  sortByLe categoryLe
    (st.nonFlight.map (fun p => (p.1, RowSource.nonFlight)) ++
     st.flight.map (fun p => (p.1, RowSource.flight)))

/-- Look up one category row's cell for one month. -/
def lookupCategoryCell (st : AggState) (cs : String × RowSource) (mk : MonthKey) : Cell :=
  match cs.2 with
  | RowSource.nonFlight => cellGet (groupGet st.nonFlight cs.1) mk
  | RowSource.flight => cellGet (groupGet st.flight cs.1) mk

/-- The per-month column sums over all category rows (the accumulation loop
of the Total row). -/
def sumCells (st : AggState) (cats : List (String × RowSource)) (mk : MonthKey) : Rat × Rat :=
  cats.foldl
    (fun acc cs =>
      let c := lookupCategoryCell st cs mk
      (acc.1 + c.USD, acc.2 + c.AED))
    (0, 0)

/-- The months of the report: all touched months, sorted, restricted to the
current calendar year when `yearFilter = "current"` (the handler re-parses
the year out of the rendered `YYYY-MM` string; for the nonnegative 4-digit
years of the data that parse returns `MonthKey.year`). -/
def reportMonths (expenses : List Expense) (yearFilter : String)
    (showSubcategories reportForATS : Bool) (currentYear : Int) : List MonthKey :=
  let st := aggState expenses showSubcategories reportForATS
  let allMonths := sortByLe monthKeyLe st.allMonths
  if yearFilter = "current" then allMonths.filter (fun mk => mk.year == currentYear)
  else allMonths

/-- The error outcomes of the export handler relevant to the report core:
the early `404 "No expenses found"` for an empty expense list, and the
`404 "No data available for the selected period"` when the filtered month
set is empty. -/
inductive ReportError
  | noExpensesFound
  | noDataForPeriod
deriving DecidableEq

/-- The assembled report matrix: the month columns and, in render order, the
category rows, the `Credit note` row, the `Total` row and the
`Charter profit` row (each row aligned with `months`). -/
structure Report where
  months : List MonthKey
  categoryRows : List (String × List Cell)
  creditNoteRow : List Cell
  totalRow : List Cell
  charterProfitRow : List Cell
deriving DecidableEq

deriving instance DecidableEq for Except

/-- Assemble the rows of the spreadsheet from the aggregation state and the
filtered month list: category rows in sorted order, then `Credit note`, then
`Total = Σ(category rows) − Credit note` per month and currency column, then
`Charter profit`. -/
def buildReport (st : AggState) (months : List MonthKey) : Report :=
  let allCats := allCategoriesSorted st
  ⟨months,
   allCats.map (fun cs => (cs.1, months.map (fun mk => lookupCategoryCell st cs mk))),
   months.map (fun mk => cellGet st.creditNote mk),
   months.map (fun mk =>
     let sums := sumCells st allCats mk
     let cn := cellGet st.creditNote mk
     ⟨sums.1 - cn.USD, sums.2 - cn.AED⟩),
   months.map (fun mk => cellGet st.charterProfit mk)⟩

/-- The report pipeline of the `export-excel` handler, from the fetched
expense snapshot to either an error or the assembled matrix (spreadsheet
styling, column widths and the output filename are presentation-only and not
modelled).  `currentYear` stands for `new Date().getFullYear()`. -/
def exportExcel (expenses : List Expense) (yearFilter : String)
    (showSubcategories reportForATS : Bool) (currentYear : Int) : Except ReportError Report :=
  if expenses.isEmpty then Except.error ReportError.noExpensesFound
  else if (reportMonths expenses yearFilter showSubcategories reportForATS currentYear).isEmpty then
    Except.error ReportError.noDataForPeriod
  else
    Except.ok (buildReport (aggState expenses showSubcategories reportForATS)
      (reportMonths expenses yearFilter showSubcategories reportForATS currentYear))

/-- The fixed category enumeration of the spec (non-flight group then flight
group), used by claim C7. -/
def CATEGORY_NAMES : List String :=
  ["CAMO and Management", "Crew", "Disbursement fee", "Insurance charge", "Maintenance",
   "Subscriptions", "Other charges", "FalconCare", "Honeywell", "Ground handling", "Fuel",
   "Navigation charges", "Overfly charges", "Catering", "Flight planning"]

/-- Placeholder entry used as the default for `List.getD` on split results. -/
def dummyEntry : MonthEntry := ⟨⟨0, 0⟩, 0, ""⟩

/-- C5 witness input: the December 2025 to January 2026 rollover expense. -/
def c5wExpense : Expense :=
  ⟨5, "Fuel", "", 1000, "USD", "", "", none, none, none,
   some ⟨2025, 11, 1⟩, some ⟨2026, 0, 1⟩, none, ⟨2025, 0, 5⟩⟩

/-- C4 witness input: a three-month amortization of 100. -/
def c4wExpense : Expense :=
  ⟨4, "Crew", "", 100, "USD", "", "", none, none, none,
   some ⟨2025, 0, 1⟩, some ⟨2025, 2, 1⟩, none, ⟨2025, 0, 5⟩⟩

/-- C2 counterexample input: amortization period March 2025 to January 2026
(`period_end` exclusive), 1100 USD. -/
def c2Expense : Expense :=
  ⟨2, "Fuel", "", 1100, "USD", "", "", none, none, none,
   some ⟨2025, 2, 1⟩, some ⟨2026, 0, 1⟩, none, ⟨2025, 0, 5⟩⟩

/-- C2 witness input: three-month amortization of 300, January to March
2025. -/
def c2wExpense : Expense :=
  ⟨3, "Fuel", "", 300, "USD", "", "", none, none, none,
   some ⟨2025, 0, 1⟩, some ⟨2025, 2, 1⟩, none, ⟨2025, 0, 5⟩⟩

/-- C7 witness input: upper-case "FUEL" type. -/
def c7wFuel : Expense :=
  ⟨71, "FUEL", "", 10, "USD", "", "", none, none, none, none, none, none, ⟨2025, 0, 1⟩⟩

/-- C7 witness input: an unclassifiable label. -/
def c7wRandom : Expense :=
  ⟨72, "Random Unmapped Label", "", 500, "USD", "", "", none, none, none, none, none, none,
   ⟨2025, 4, 7⟩⟩

/-- C3 witness input: a March 2025 expense (outside the witness's "current"
year 2026). -/
def c3wExpense : Expense :=
  ⟨31, "Fuel", "", 1000, "USD", "", "", none, none, none,
   some ⟨2025, 2, 1⟩, some ⟨2025, 3, 1⟩, none, ⟨2025, 0, 5⟩⟩

/-- C1/C10 witness input: 1000 USD of Fuel in March 2025. -/
def c1wFuel : Expense :=
  ⟨15, "Fuel", "", 1000, "USD", "", "", none, none, none,
   some ⟨2025, 2, 1⟩, some ⟨2025, 3, 1⟩, none, ⟨2025, 0, 5⟩⟩

/-- C1/C10 witness input: a 200 USD credit note for March 2025, detected via
its invoice-type name. -/
def c1wCreditNote : Expense :=
  ⟨16, "whatever", "", 200, "USD", "", "Credit Note x", none, none, none,
   some ⟨2025, 2, 1⟩, some ⟨2025, 3, 1⟩, none, ⟨2025, 2, 2⟩⟩

/-- The report the handler produces for `[c1wFuel, c1wCreditNote]` with the
current-year filter in 2025. -/
def c1wReport : Report :=
  ⟨[⟨2025, 3⟩],
   [("Fuel", [⟨1000, 7347 / 2⟩])],
   [⟨200, 7347 / 10⟩],
   [⟨800, 14694 / 5⟩],
   [⟨0, 0⟩]⟩

/-- The exclusion set as claim C6 describes it: an expense is excluded
exactly when its period starts before the cutoff, or it is a
Disbursement-fee expense related (same invoice / flight / period / place, in
the sense of `relatedFeeMatch`) to some expense excluded by the cutoff. -/
def atsExcludedSpec (expenses : List Expense) (e : Expense) : Bool :=
  isPeriodBeforeOctober2025 e ||
    (isDisbursementFee e &&
     expenses.any (fun me => isPeriodBeforeOctober2025 me && relatedFeeMatch me e))

/-- Soundness invariant of the marking passes: every marked id belongs to an
expense of the list that the claim's exclusion description covers. -/
def goodSet (allExpenses : List Expense) (s : Int → Bool) : Prop :=
  ∀ x, s x = true → ∃ e ∈ allExpenses, e.id = x ∧ atsExcludedSpec allExpenses e = true

/-- C6 witness input: a pre-cutoff expense (period starts May 2025, no
period end) on invoice 7. -/
def c6wExcluded : Expense :=
  ⟨11, "Fuel", "", 100, "USD", "", "", some 7, none, none,
   some ⟨2025, 4, 1⟩, none, none, ⟨2025, 4, 2⟩⟩

/-- C6 witness input: a disbursement fee sharing invoice 7, with no flight,
period or place, related to `c6wExcluded`. -/
def c6wFee : Expense :=
  ⟨12, "Disbursement fee", "", 10, "USD", "", "", some 7, none, none,
   none, none, none, ⟨2025, 4, 3⟩⟩

/-- C6 witness input: a post-cutoff expense that must pass through. -/
def c6wKept : Expense :=
  ⟨13, "Fuel", "", 50, "USD", "", "", none, none, none,
   some ⟨2025, 10, 1⟩, some ⟨2025, 11, 1⟩, none, ⟨2025, 10, 2⟩⟩

/-- The dual-currency invariant of claim C10: the AED accumulator of a cell
is exactly the USD accumulator times the fixed AED-per-USD rate. -/
def cellOk (c : Cell) : Prop := c.AED = c.USD * AED_TO_USD

/-- Every cell of a month map satisfies `cellOk`. -/
def cellMapOk (m : CellMap) : Prop := ∀ p ∈ m, cellOk p.2

/-- Every month map of a group satisfies `cellMapOk`. -/
def groupOk (g : GroupMap) : Prop := ∀ p ∈ g, cellMapOk p.2

/-- The dual-currency invariant over the whole aggregation state. -/
def stateOk (st : AggState) : Prop :=
  groupOk st.nonFlight ∧ groupOk st.flight ∧ cellMapOk st.creditNote ∧ cellMapOk st.charterProfit

/-! Basic lemmas about the period splitter. -/

theorem emitMonths_length (a : Rat) (c : String) :
    ∀ (n : Nat) (y : Int) (m : Nat), (emitMonths y m a c n).length = n := by
  intro n
  induction n with
  | zero => intro y m; rfl
  | succ k ih =>
    intro y m
    by_cases h : m + 1 > 11
    · simp [emitMonths, h, ih]
    · simp [emitMonths, h, ih]

theorem emitMonths_amount_currency (a : Rat) (c : String) :
    ∀ (n : Nat) (y : Int) (m : Nat), ∀ x ∈ emitMonths y m a c n, x.amount = a ∧ x.currency = c := by
  intro n
  induction n with
  | zero => intro y m x hx; cases hx
  | succ k ih =>
    intro y m x hx
    by_cases h : m + 1 > 11
    · rw [emitMonths, if_pos h] at hx
      rcases List.mem_cons.mp hx with hx | hx
      · subst hx; exact ⟨rfl, rfl⟩
      · exact ih _ _ x hx
    · rw [emitMonths, if_neg h] at hx
      rcases List.mem_cons.mp hx with hx | hx
      · subst hx; exact ⟨rfl, rfl⟩
      · exact ih _ _ x hx

theorem emitMonths_sum (a : Rat) (c : String) :
    ∀ (n : Nat) (y : Int) (m : Nat),
      ((emitMonths y m a c n).map (fun x => x.amount)).sum = (n : Rat) * a := by
  intro n
  induction n with
  | zero => intro y m; simp [emitMonths]
  | succ k ih =>
    intro y m
    by_cases h : m + 1 > 11
    · rw [emitMonths, if_pos h]
      simp only [List.map_cons, List.sum_cons, ih]
      push_cast
      ring
    · rw [emitMonths, if_neg h]
      simp only [List.map_cons, List.sum_cons, ih]
      push_cast
      ring

theorem emitMonths_getD (a : Rat) (c : String) :
    ∀ (n : Nat) (y : Int) (m : Nat), m < 12 → ∀ i, i < n →
      (emitMonths y m a c n).getD i dummyEntry =
        ⟨⟨y + (((m + i) / 12 : Nat) : Int), (m + i) % 12 + 1⟩, a, c⟩ := by
  intro n
  induction n with
  | zero => intro y m hm i hi; omega
  | succ k ih =>
    intro y m hm i hi
    cases i with
    | zero =>
      have h1 : (m + 0) / 12 = 0 := Nat.div_eq_of_lt (by omega)
      have h2 : (m + 0) % 12 + 1 = m + 1 := by omega
      rw [emitMonths]
      by_cases h : m + 1 > 11
      · rw [if_pos h, List.getD_cons_zero, h1, h2]
        simp
      · rw [if_neg h, List.getD_cons_zero, h1, h2]
        simp
    | succ j =>
      rw [emitMonths]
      by_cases h : m + 1 > 11
      · have hm' : m = 11 := by omega
        subst hm'
        rw [if_pos h, List.getD_cons_succ, ih (y + 1) 0 (by omega) j (by omega)]
        have h3 : 11 + (j + 1) = j + 12 := by omega
        rw [h3, Nat.add_div_right j (by omega), Nat.add_mod_right, Nat.zero_add]
        simp only [MonthEntry.mk.injEq, MonthKey.mk.injEq, and_true]
        push_cast
        ring
      · rw [if_neg h, List.getD_cons_succ, ih y (m + 1) (by omega) j (by omega)]
        have h3 : m + 1 + j = m + (j + 1) := by omega
        rw [h3]

theorem totalMonthsFormula_pos (ps pe : SDate) (hm : ps.month < 12) (hlt : dateLt ps pe) :
    0 < totalMonthsFormula ps pe := by
  have ha : (ps.month : Int) ≤ 11 := by exact_mod_cast Nat.le_of_lt_succ hm
  have hb : (0 : Int) ≤ (pe.month : Int) := Int.ofNat_nonneg pe.month
  unfold totalMonthsFormula
  rcases hlt with h | ⟨hy, h⟩
  · have h12 : ps.year + 1 ≤ pe.year := h
    nlinarith [h12]
  · rcases h with h | ⟨hmeq, _⟩
    · have h13 : (ps.month : Int) < (pe.month : Int) := by exact_mod_cast h
      rw [hy]
      nlinarith [h13]
    · rw [hy, hmeq]
      omega

/-- Reduction of `splitExpenseByMonths` for a flightless expense with both
period bounds set. -/
theorem splitExpenseByMonths_period (e : Expense) (ps pe : SDate)
    (hf : e.exp_flight = none)
    (hps : e.exp_period_start = some ps) (hpe : e.exp_period_end = some pe)
    (tm : Int)
    (htm : tm = if isSingleMonthPeriod ps pe then 1 else totalMonthsFormula ps pe) :
    splitExpenseByMonths e =
      emitMonths ps.year ps.month
        (if 0 < tm then e.exp_amount / (tm : Rat) else e.exp_amount)
        (expCurrency e) tm.toNat := by
  subst htm
  unfold splitExpenseByMonths
  rw [hf, hps, hpe]

/-! Claim C5. -/

/-- C5: for every expense whose `period_end` is exactly the first day of the
month immediately following `period_start`'s month — including the
December-to-January year rollover — the period splitter emits exactly one
entry, keyed by `period_start`'s month, carrying the full expense amount. -/
theorem C5_single_month_period (e : Expense) (ps pe : SDate)
    (hf : e.exp_flight = none)
    (hps : e.exp_period_start = some ps) (hpe : e.exp_period_end = some pe)
    (hday : pe.day = 1)
    (hnext : (pe.year = ps.year ∧ pe.month = ps.month + 1 ∧ ps.month ≤ 10) ∨
             (pe.year = ps.year + 1 ∧ pe.month = 0 ∧ ps.month = 11)) :
    splitExpenseByMonths e = [⟨⟨ps.year, ps.month + 1⟩, e.exp_amount, expCurrency e⟩] := by
  have hsm : isSingleMonthPeriod ps pe := by
    unfold isSingleMonthPeriod
    rcases hnext with ⟨h1, h2, h3⟩ | ⟨h1, h2, h3⟩
    · exact ⟨hday, Or.inl ⟨by rw [h2, Nat.mod_eq_of_lt (by omega)], h1⟩⟩
    · exact ⟨hday, Or.inr ⟨h2, h1⟩⟩
  rw [splitExpenseByMonths_period e ps pe hf hps hpe 1 (by rw [if_pos hsm])]
  norm_num [emitMonths]

theorem C5_single_month_period_witness :
    splitExpenseByMonths c5wExpense =
      [⟨⟨2025, 12⟩, c5wExpense.exp_amount, expCurrency c5wExpense⟩] :=
  C5_single_month_period c5wExpense ⟨2025, 11, 1⟩ ⟨2026, 0, 1⟩ rfl rfl rfl rfl (by decide)

/-! Claim C4. -/

/-- C4: for every flightless expense with both period bounds set and
`period_end` strictly after `period_start` (with a valid 0-based start
month), the per-month amounts emitted by the period splitter sum exactly, in
rational arithmetic, to the expense's original amount. -/
theorem C4_period_split_conservation (e : Expense) (ps pe : SDate)
    (hf : e.exp_flight = none)
    (hps : e.exp_period_start = some ps) (hpe : e.exp_period_end = some pe)
    (hm : ps.month < 12) (hlt : dateLt ps pe) :
    ((splitExpenseByMonths e).map (fun x => x.amount)).sum = e.exp_amount := by
  by_cases hsm : isSingleMonthPeriod ps pe
  · rw [splitExpenseByMonths_period e ps pe hf hps hpe 1 (by rw [if_pos hsm])]
    norm_num [emitMonths]
  · have htm := totalMonthsFormula_pos ps pe hm hlt
    rw [splitExpenseByMonths_period e ps pe hf hps hpe (totalMonthsFormula ps pe)
      (by rw [if_neg hsm])]
    rw [if_pos htm, emitMonths_sum]
    have hne : ((totalMonthsFormula ps pe : Int) : Rat) ≠ 0 := by
      exact_mod_cast ne_of_gt htm
    have hc : (((totalMonthsFormula ps pe).toNat : Nat) : Rat) =
        ((totalMonthsFormula ps pe : Int) : Rat) := by
      exact_mod_cast Int.toNat_of_nonneg (le_of_lt htm)
    rw [hc, mul_comm, div_mul_cancel₀ _ hne]

theorem C4_period_split_conservation_witness :
    ((splitExpenseByMonths c4wExpense).map (fun x => x.amount)).sum = c4wExpense.exp_amount :=
  C4_period_split_conservation c4wExpense ⟨2025, 0, 1⟩ ⟨2025, 2, 1⟩ rfl rfl rfl
    (by decide) (by decide)

/-! Claim C2.  The claim as stated is false on the code: the `isSingleMonth`
test also fires when `period_end` is January 1 of the year after
`period_start` even though `period_start`'s month is not December, so such a
period — which is not "the first day of the month immediately following
`period_start`'s month" — collapses to a single month instead of following
the `totalMonths` formula. -/

/-- C2 counterexample: for the expense with `period_start` 2025-03-01 and
`period_end` 2026-01-01 — where `period_end` is not the first day of the
month immediately following `period_start`'s month — the formula of spec
section 4.3 gives 11 months, but the splitter emits a single entry carrying
the full amount. -/
theorem C2_counterexample :
    (c2Expense.exp_flight = none ∧
     c2Expense.exp_period_start = some ⟨2025, 2, 1⟩ ∧
     c2Expense.exp_period_end = some ⟨2026, 0, 1⟩ ∧
     ¬(((2026 : Int) = 2025 ∧ (0 : Nat) = 2 + 1 ∧ (2 : Nat) ≤ 10) ∨
       ((2026 : Int) = 2025 + 1 ∧ (0 : Nat) = 0 ∧ (2 : Nat) = 11)) ∧
     totalMonthsFormula ⟨2025, 2, 1⟩ ⟨2026, 0, 1⟩ = 11) ∧
    splitExpenseByMonths c2Expense = [⟨⟨2025, 3⟩, 1100, "USD"⟩] ∧
    (splitExpenseByMonths c2Expense).length ≠
      (totalMonthsFormula ⟨2025, 2, 1⟩ ⟨2026, 0, 1⟩).toNat := by
  refine ⟨⟨rfl, rfl, rfl, by decide, by decide⟩, by decide, by decide⟩

/-- C2 (amended): for every flightless expense with both period bounds set,
`period_end` strictly after `period_start`, and `period_end` not matching the
code's single-month test (`endDay = 1` and `endMonth = (startMonth + 1) % 12`
in the same year, or `endMonth = 0` in the immediately following year), the
splitter emits exactly `totalMonthsFormula` entries, one per consecutive
calendar month starting at `period_start`'s month, each carrying
`amount / totalMonths`. -/
theorem C2_month_count_amended (e : Expense) (ps pe : SDate)
    (hf : e.exp_flight = none)
    (hps : e.exp_period_start = some ps) (hpe : e.exp_period_end = some pe)
    (hm : ps.month < 12) (hlt : dateLt ps pe)
    (hns : ¬ isSingleMonthPeriod ps pe) :
    ((splitExpenseByMonths e).length : Int) = totalMonthsFormula ps pe ∧
    ∀ i, i < (splitExpenseByMonths e).length →
      (splitExpenseByMonths e).getD i dummyEntry =
        ⟨⟨ps.year + (((ps.month + i) / 12 : Nat) : Int), (ps.month + i) % 12 + 1⟩,
         e.exp_amount / ((totalMonthsFormula ps pe : Int) : Rat), expCurrency e⟩ := by
  have htm := totalMonthsFormula_pos ps pe hm hlt
  rw [splitExpenseByMonths_period e ps pe hf hps hpe (totalMonthsFormula ps pe)
    (by rw [if_neg hns])]
  rw [if_pos htm, emitMonths_length]
  constructor
  · exact_mod_cast Int.toNat_of_nonneg (le_of_lt htm)
  · intro i hi
    exact emitMonths_getD _ _ _ ps.year ps.month hm i hi

theorem C2_month_count_amended_witness :
    ((splitExpenseByMonths c2wExpense).length : Int) = totalMonthsFormula ⟨2025, 0, 1⟩ ⟨2025, 2, 1⟩ ∧
    ∀ i, i < (splitExpenseByMonths c2wExpense).length →
      (splitExpenseByMonths c2wExpense).getD i dummyEntry =
        ⟨⟨(2025 : Int) + (((0 + i) / 12 : Nat) : Int), (0 + i) % 12 + 1⟩,
         c2wExpense.exp_amount / ((totalMonthsFormula ⟨2025, 0, 1⟩ ⟨2025, 2, 1⟩ : Int) : Rat),
         expCurrency c2wExpense⟩ :=
  C2_month_count_amended c2wExpense ⟨2025, 0, 1⟩ ⟨2025, 2, 1⟩ rfl rfl rfl
    (by decide) (by decide) (by decide)

/-! Claim C8. -/

/-- C8: converting any amount USD to AED and back to USD, or USD to EUR and
back to USD, returns the original amount exactly (in rational
arithmetic). -/
theorem C8_currency_round_trip (a : Rat) :
    convertCurrency (convertCurrency a "USD" "AED") "AED" "USD" = a ∧
    convertCurrency (convertCurrency a "USD" "EUR") "EUR" "USD" = a := by
  have hU : AED_TO_USD ≠ 0 := by norm_num [AED_TO_USD]
  have hE : AED_TO_EUR ≠ 0 := by norm_num [AED_TO_EUR]
  by_cases ha : a = 0
  · subst ha
    constructor <;> simp [convertCurrency]
  · have h1 : convertCurrency a "USD" "AED" = a * AED_TO_USD := by
      simp [convertCurrency, ha]
    have h2 : a * AED_TO_USD ≠ 0 := mul_ne_zero ha hU
    have h3 : convertCurrency (a * AED_TO_USD) "AED" "USD" = a * AED_TO_USD / AED_TO_USD := by
      simp [convertCurrency, h2]
    have h4 : convertCurrency a "USD" "EUR" = a * AED_TO_USD / AED_TO_EUR := by
      simp [convertCurrency, ha]
    have h5 : a * AED_TO_USD / AED_TO_EUR ≠ 0 := div_ne_zero h2 hE
    have h6 : convertCurrency (a * AED_TO_USD / AED_TO_EUR) "EUR" "USD" =
        a * AED_TO_USD / AED_TO_EUR * AED_TO_EUR / AED_TO_USD := by
      simp [convertCurrency, h5]
    refine ⟨?_, ?_⟩
    · rw [h1, h3, mul_div_cancel_right₀ a hU]
    · rw [h4, h6, div_mul_cancel₀ _ hE, mul_div_cancel_right₀ a hU]

/-! Claim C9.  The "returns the amount unconverted for every unrecognized
from/to combination" half of the claim is false on the code: an unrecognized
source currency with target `EUR` yields `0`, and with target `AED` the
amount is converted as if the source were USD. -/

/-- C9 counterexample: converting 100 from the unrecognized currency "GBP" to
EUR returns 0, not the unconverted amount. -/
theorem C9_counterexample :
    convertCurrency 100 "GBP" "EUR" = 0 ∧ convertCurrency 100 "GBP" "EUR" ≠ 100 := by
  constructor
  · decide
  · decide

/-- C9 (amended): `convertCurrency` returns 0 whenever the amount or either
currency is falsy, and raises no error on unsupported currency strings; an
unrecognized source converts to USD unchanged, to AED multiplied by the
AED-per-USD rate (treated as USD), and to EUR as 0; any conversion to an
unrecognized target returns the amount unconverted. -/
theorem C9_falsy_and_unknown_currency_amended :
    (∀ f t, convertCurrency 0 f t = 0) ∧
    (∀ a t, convertCurrency a "" t = 0) ∧
    (∀ a f, convertCurrency a f "" = 0) ∧
    (∀ a f, a ≠ 0 → f ≠ "" → f ≠ "USD" → f ≠ "AED" → f ≠ "EUR" →
       convertCurrency a f "USD" = a ∧
       convertCurrency a f "AED" = a * AED_TO_USD ∧
       convertCurrency a f "EUR" = 0) ∧
    (∀ a f t, a ≠ 0 → f ≠ "" → t ≠ "" → t ≠ "USD" → t ≠ "AED" → t ≠ "EUR" →
       convertCurrency a f t = a) := by
  refine ⟨?_, ?_, ?_, ?_, ?_⟩
  · intro f t
    simp [convertCurrency]
  · intro a t
    simp [convertCurrency]
  · intro a f
    simp [convertCurrency]
  · intro a f ha hf h1 h2 h3
    refine ⟨?_, ?_, ?_⟩ <;> simp [convertCurrency, ha, hf, h1, h2, h3]
  · intro a f t ha hf ht h1 h2 h3
    by_cases hft : f = t
    · subst hft
      simp [convertCurrency, ha, hf]
    · simp [convertCurrency, ha, hf, ht, h1, h2, h3, hft]

/-! Claim C7. -/

/-- C7: every name in the fixed 15-name enumeration classifies to itself for
a non-income expense whose type equals it case-insensitively; an expense
whose type matches none of the ordered rules classifies to null and is
skipped entirely by the aggregation pass — the aggregation state (hence
every category cell, the month set and the Total row) is untouched, and for
a non-ATS report the whole report equals the report without that expense. -/
theorem C7_classification_totality_and_skip :
    (∀ name ∈ CATEGORY_NAMES, ∀ e : Expense,
       isCreditNote e = false → isCharterProfit e = false →
       strLower e.exp_type = strLower name →
       getBaseExpenseCategory e = some name) ∧
    (∀ (e : Expense) (ss : Bool) (st : AggState),
       isCreditNote e = false → isCharterProfit e = false →
       getBaseExpenseCategory e = none →
       processExpense ss st e = st) ∧
    (∀ (e : Expense) (rest : List Expense) (yf : String) (ss : Bool) (cy : Int),
       isCreditNote e = false → isCharterProfit e = false →
       getBaseExpenseCategory e = none → rest ≠ [] →
       exportExcel (e :: rest) yf ss false cy = exportExcel rest yf ss false cy) := by
  have hskip : ∀ (e : Expense) (ss : Bool) (st : AggState),
      isCreditNote e = false → isCharterProfit e = false →
      getBaseExpenseCategory e = none → processExpense ss st e = st := by
    intro e ss st h1 h2 h0
    simp [processExpense, h1, h2, h0]
  refine ⟨?_, hskip, ?_⟩
  · intro name hn e _ _ htype
    show classifyType (strLower e.exp_type) = some name
    rw [htype]
    fin_cases hn <;> decide
  · intro e rest yf ss cy h1 h2 h0 hne
    have hagg : aggState (e :: rest) ss false = aggState rest ss false := by
      unfold aggState
      simp [hskip e ss initAggState h1 h2 h0]
    cases rest with
    | nil => exact absurd rfl hne
    | cons b bs =>
      unfold exportExcel reportMonths
      rw [hagg]
      rfl

theorem C7_classification_totality_and_skip_witness :
    getBaseExpenseCategory c7wFuel = some "Fuel" ∧
    processExpense false initAggState c7wRandom = initAggState ∧
    exportExcel [c7wRandom, c7wFuel] "current" false false 2025 =
      exportExcel [c7wFuel] "current" false false 2025 :=
  ⟨C7_classification_totality_and_skip.1 "Fuel" (by decide) c7wFuel (by decide) (by decide)
      (by decide),
   C7_classification_totality_and_skip.2.1 c7wRandom false initAggState (by decide) (by decide)
      (by decide),
   C7_classification_totality_and_skip.2.2 c7wRandom [c7wFuel] "current" false 2025 (by decide)
      (by decide) (by decide) (by decide)⟩

/-! Claim C3.  The claim as stated is false on the code: an empty expense
list is rejected by the early `No expenses found` check before the month set
is ever computed, so it does not fail with the `NoDataForPeriod` condition
(surfaced as "No data available for the selected period"). -/

/-- C3 counterexample: with an empty expense list and `yearFilter="current"`
the handler fails with the early distinct `No expenses found` error, not
with `NoDataForPeriod`, contradicting the claim's "in particular"
instance. -/
theorem C3_counterexample :
    exportExcel ([] : List Expense) "current" false false 2025 =
      Except.error ReportError.noExpensesFound ∧
    ReportError.noExpensesFound ≠ ReportError.noDataForPeriod := by
  constructor
  · rfl
  · decide

/-- C3 (amended): for a non-empty expense list, report generation fails with
`NoDataForPeriod` exactly when the year-filtered month set is empty; an
empty expense list instead fails earlier with the distinct
`No expenses found` error. -/
theorem C3_no_data_amended :
    (∀ (expenses : List Expense) (yf : String) (ss ats : Bool) (cy : Int),
       expenses ≠ [] →
       (exportExcel expenses yf ss ats cy = Except.error ReportError.noDataForPeriod ↔
        reportMonths expenses yf ss ats cy = [])) ∧
    (∀ (yf : String) (ss ats : Bool) (cy : Int),
       exportExcel ([] : List Expense) yf ss ats cy =
         Except.error ReportError.noExpensesFound) := by
  constructor
  · intro expenses yf ss ats cy hne
    cases expenses with
    | nil => exact absurd rfl hne
    | cons a as =>
      by_cases hm : reportMonths (a :: as) yf ss ats cy = []
      · simp [exportExcel, hm]
      · simp [exportExcel, hm]
  · intro yf ss ats cy
    rfl

theorem C3_no_data_amended_witness :
    exportExcel [c3wExpense] "current" false false 2026 =
      Except.error ReportError.noDataForPeriod :=
  (C3_no_data_amended.1 [c3wExpense] "current" false false 2026 (by decide)).mpr (by decide)

theorem C9_falsy_and_unknown_currency_amended_witness :
    (convertCurrency 5 "GBP" "USD" = 5 ∧
     convertCurrency 5 "GBP" "AED" = 5 * AED_TO_USD ∧
     convertCurrency 5 "GBP" "EUR" = 0) ∧
    convertCurrency 7 "USD" "JPY" = 7 :=
  ⟨C9_falsy_and_unknown_currency_amended.2.2.2.1 5 "GBP"
      (by decide) (by decide) (by decide) (by decide) (by decide),
   C9_falsy_and_unknown_currency_amended.2.2.2.2 7 "USD" "JPY"
      (by decide) (by decide) (by decide) (by decide) (by decide) (by decide)⟩

/-! Helper lemmas for the assembled report (claims C1 and C10). -/

theorem getD_map {α β : Type} (f : α → β) (l : List α) (i : Nat) (hi : i < l.length) (d : β) :
    (l.map f).getD i d = f (l.get ⟨i, hi⟩) := by
  rw [List.getD_eq_getElem _ d (by simpa using hi)]
  simp

theorem exportExcel_ok_eq (expenses : List Expense) (yf : String) (ss ats : Bool) (cy : Int)
    (r : Report) (h : exportExcel expenses yf ss ats cy = Except.ok r) :
    r = buildReport (aggState expenses ss ats) (reportMonths expenses yf ss ats cy) := by
  unfold exportExcel at h
  by_cases h1 : expenses.isEmpty
  · rw [if_pos h1] at h
    cases h
  · rw [if_neg h1] at h
    by_cases h2 : (reportMonths expenses yf ss ats cy).isEmpty
    · rw [if_pos h2] at h
      cases h
    · rw [if_neg h2] at h
      injection h with h
      exact h.symm

theorem foldl_add_pair {α : Type} (u v : α → Rat) :
    ∀ (l : List α) (a b : Rat),
      l.foldl (fun acc x => (acc.1 + u x, acc.2 + v x)) (a, b) =
        (a + (l.map u).sum, b + (l.map v).sum) := by
  intro l
  induction l with
  | nil => intro a b; simp
  | cons x t ih =>
    intro a b
    simp only [List.foldl_cons, List.map_cons, List.sum_cons, ih, Prod.mk.injEq]
    constructor <;> ring

theorem sumCells_eq (st : AggState) (cats : List (String × RowSource)) (mk : MonthKey) :
    sumCells st cats mk =
      ((cats.map (fun cs => (lookupCategoryCell st cs mk).USD)).sum,
       (cats.map (fun cs => (lookupCategoryCell st cs mk).AED)).sum) := by
  have h := foldl_add_pair (fun cs => (lookupCategoryCell st cs mk).USD)
    (fun cs => (lookupCategoryCell st cs mk).AED) cats 0 0
  unfold sumCells
  simpa using h

theorem buildReport_total_formula (st : AggState) (months : List MonthKey) (i : Nat)
    (hi : i < months.length) :
    ((buildReport st months).totalRow.getD i ⟨0, 0⟩).USD =
        ((buildReport st months).categoryRows.map (fun row => (row.2.getD i ⟨0, 0⟩).USD)).sum -
          ((buildReport st months).creditNoteRow.getD i ⟨0, 0⟩).USD ∧
    ((buildReport st months).totalRow.getD i ⟨0, 0⟩).AED =
        ((buildReport st months).categoryRows.map (fun row => (row.2.getD i ⟨0, 0⟩).AED)).sum -
          ((buildReport st months).creditNoteRow.getD i ⟨0, 0⟩).AED := by
  have htot : (buildReport st months).totalRow.getD i ⟨0, 0⟩ =
      (fun mk =>
        (⟨(sumCells st (allCategoriesSorted st) mk).1 - (cellGet st.creditNote mk).USD,
          (sumCells st (allCategoriesSorted st) mk).2 - (cellGet st.creditNote mk).AED⟩ : Cell))
        (months.get ⟨i, hi⟩) :=
    getD_map _ months i hi _
  have hcn : (buildReport st months).creditNoteRow.getD i ⟨0, 0⟩ =
      cellGet st.creditNote (months.get ⟨i, hi⟩) :=
    getD_map _ months i hi _
  have hcatU : (buildReport st months).categoryRows.map (fun row => (row.2.getD i ⟨0, 0⟩).USD) =
      (allCategoriesSorted st).map
        (fun cs => (lookupCategoryCell st cs (months.get ⟨i, hi⟩)).USD) := by
    show ((allCategoriesSorted st).map
        (fun cs => (cs.1, months.map (fun mk => lookupCategoryCell st cs mk)))).map _ = _
    rw [List.map_map]
    apply List.map_congr_left
    intro cs _
    show ((months.map (fun mk => lookupCategoryCell st cs mk)).getD i ⟨0, 0⟩).USD = _
    rw [getD_map _ months i hi]
  have hcatA : (buildReport st months).categoryRows.map (fun row => (row.2.getD i ⟨0, 0⟩).AED) =
      (allCategoriesSorted st).map
        (fun cs => (lookupCategoryCell st cs (months.get ⟨i, hi⟩)).AED) := by
    show ((allCategoriesSorted st).map
        (fun cs => (cs.1, months.map (fun mk => lookupCategoryCell st cs mk)))).map _ = _
    rw [List.map_map]
    apply List.map_congr_left
    intro cs _
    show ((months.map (fun mk => lookupCategoryCell st cs mk)).getD i ⟨0, 0⟩).AED = _
    rw [getD_map _ months i hi]
  constructor
  · rw [htot, hcatU, hcn]
    show (sumCells st (allCategoriesSorted st) (months.get ⟨i, hi⟩)).1 - _ = _
    rw [sumCells_eq]
  · rw [htot, hcatA, hcn]
    show (sumCells st (allCategoriesSorted st) (months.get ⟨i, hi⟩)).2 - _ = _
    rw [sumCells_eq]

/-! Claim C1. -/

/-- C1: whenever the export succeeds, each cell of the Total row equals the
sum of the displayed category rows' cells for that month minus the
Credit-note cell, in both the USD and AED columns; the Total row is computed
without reference to the Charter-profit accumulator (replacing it changes
nothing), so Charter profit never contributes to the Total. -/
theorem C1_total_row_formula (expenses : List Expense) (yf : String) (ss ats : Bool)
    (cy : Int) (r : Report) (h : exportExcel expenses yf ss ats cy = Except.ok r) :
    (∀ i, i < r.months.length →
      (r.totalRow.getD i ⟨0, 0⟩).USD =
          (r.categoryRows.map (fun row => (row.2.getD i ⟨0, 0⟩).USD)).sum -
            (r.creditNoteRow.getD i ⟨0, 0⟩).USD ∧
      (r.totalRow.getD i ⟨0, 0⟩).AED =
          (r.categoryRows.map (fun row => (row.2.getD i ⟨0, 0⟩).AED)).sum -
            (r.creditNoteRow.getD i ⟨0, 0⟩).AED) ∧
    ∀ (st : AggState) (months : List MonthKey) (cp : CellMap),
      (buildReport ⟨st.nonFlight, st.flight, st.creditNote, cp, st.allMonths⟩ months).totalRow =
        (buildReport st months).totalRow := by
  have hr := exportExcel_ok_eq expenses yf ss ats cy r h
  subst hr
  refine ⟨?_, ?_⟩
  · intro i hi
    exact buildReport_total_formula _ _ i hi
  · intro st months cp
    rfl

theorem C1_total_row_formula_witness :
    (∀ i, i < c1wReport.months.length →
      (c1wReport.totalRow.getD i ⟨0, 0⟩).USD =
          (c1wReport.categoryRows.map (fun row => (row.2.getD i ⟨0, 0⟩).USD)).sum -
            (c1wReport.creditNoteRow.getD i ⟨0, 0⟩).USD ∧
      (c1wReport.totalRow.getD i ⟨0, 0⟩).AED =
          (c1wReport.categoryRows.map (fun row => (row.2.getD i ⟨0, 0⟩).AED)).sum -
            (c1wReport.creditNoteRow.getD i ⟨0, 0⟩).AED) ∧
    ∀ (st : AggState) (months : List MonthKey) (cp : CellMap),
      (buildReport ⟨st.nonFlight, st.flight, st.creditNote, cp, st.allMonths⟩ months).totalRow =
        (buildReport st months).totalRow :=
  C1_total_row_formula [c1wFuel, c1wCreditNote] "current" false false 2025 c1wReport (by decide)

/-! Invariant lemmas for claim C10: every accumulation step adds an
`(USD, AED)` delta with `AED = USD * AED_TO_USD`, so the relation holds in
every cell of the final state and of the assembled matrix. -/

theorem dualDelta_ok (m : Rat) (c : String) :
    (dualDelta m c).2 = (dualDelta m c).1 * AED_TO_USD := by
  have hU : AED_TO_USD ≠ 0 := by norm_num [AED_TO_USD]
  by_cases hm : m = 0
  · subst hm
    unfold dualDelta
    split_ifs <;> simp [convertCurrency]
  · unfold dualDelta
    split_ifs with h1 h2 h3
    · simp [convertCurrency, hm]
    · simp [convertCurrency, hm]
      rw [div_mul_cancel₀ _ hU]
    · simp [convertCurrency, hm]
      rw [div_mul_cancel₀ _ hU]
    · by_cases hc : c = ""
      · subst hc
        simp [convertCurrency, hm]
      · simp [convertCurrency, hm, hc, h1, h2, h3]

theorem cellGet_ok (m : CellMap) (k : MonthKey) (h : cellMapOk m) : cellOk (cellGet m k) := by
  unfold cellGet
  cases hf : m.find? (fun p => p.1 == k) with
  | none => simp [cellOk]
  | some p => exact h p (List.mem_of_find?_eq_some hf)

theorem cellMapAdd_ok (k : MonthKey) (dU dA : Rat) (hd : dA = dU * AED_TO_USD) :
    ∀ m : CellMap, cellMapOk m → cellMapOk (cellMapAdd m k dU dA) := by
  intro m
  induction m with
  | nil =>
    intro _ p hp
    rcases List.mem_cons.mp hp with h | h
    · subst h
      exact hd
    · cases h
  | cons q rest ih =>
    intro hm p hp
    rw [cellMapAdd] at hp
    by_cases hq : q.1 == k
    · rw [if_pos hq] at hp
      rcases List.mem_cons.mp hp with h | h
      · subst h
        have hqok : q.2.AED = q.2.USD * AED_TO_USD := hm q (List.mem_cons_self q rest)
        show q.2.AED + dA = (q.2.USD + dU) * AED_TO_USD
        rw [hqok, hd]
        ring
      · exact hm p (List.mem_cons_of_mem q h)
    · rw [if_neg hq] at hp
      rcases List.mem_cons.mp hp with h | h
      · rw [h]
        exact hm q (List.mem_cons_self q rest)
      · exact ih (fun x hx => hm x (List.mem_cons_of_mem q hx)) p h

theorem groupTouch_ok (c : String) :
    ∀ g : GroupMap, groupOk g → groupOk (groupTouch g c) := by
  intro g
  induction g with
  | nil =>
    intro _ p hp
    rcases List.mem_cons.mp hp with h | h
    · subst h
      intro q hq
      cases hq
    · cases h
  | cons q rest ih =>
    intro hg p hp
    rw [groupTouch] at hp
    by_cases hq : q.1 == c
    · rw [if_pos hq] at hp
      exact hg p hp
    · rw [if_neg hq] at hp
      rcases List.mem_cons.mp hp with h | h
      · rw [h]
        exact hg q (List.mem_cons_self q rest)
      · exact ih (fun x hx => hg x (List.mem_cons_of_mem q hx)) p h

theorem groupAdd_ok (c : String) (k : MonthKey) (dU dA : Rat) (hd : dA = dU * AED_TO_USD) :
    ∀ g : GroupMap, groupOk g → groupOk (groupAdd g c k dU dA) := by
  intro g
  induction g with
  | nil =>
    intro _ p hp
    rcases List.mem_cons.mp hp with h | h
    · subst h
      exact cellMapAdd_ok k dU dA hd [] (fun q hq => by cases hq)
    · cases h
  | cons q rest ih =>
    intro hg p hp
    rw [groupAdd] at hp
    by_cases hq : q.1 == c
    · rw [if_pos hq] at hp
      rcases List.mem_cons.mp hp with h | h
      · subst h
        exact cellMapAdd_ok k dU dA hd q.2 (hg q (List.mem_cons_self q rest))
      · exact hg p (List.mem_cons_of_mem q h)
    · rw [if_neg hq] at hp
      rcases List.mem_cons.mp hp with h | h
      · rw [h]
        exact hg q (List.mem_cons_self q rest)
      · exact ih (fun x hx => hg x (List.mem_cons_of_mem q hx)) p h

theorem groupGet_ok (g : GroupMap) (c : String) (h : groupOk g) : cellMapOk (groupGet g c) := by
  unfold groupGet
  cases hf : g.find? (fun p => p.1 == c) with
  | none =>
    intro p hp
    cases hp
  | some p => exact h p (List.mem_of_find?_eq_some hf)

theorem foldl_preserve {σ α : Type} (P : σ → Prop) (f : σ → α → σ)
    (hf : ∀ s x, P s → P (f s x)) :
    ∀ (l : List α) (s : σ), P s → P (l.foldl f s) := by
  intro l
  induction l with
  | nil =>
    intro s h
    exact h
  | cons a t ih =>
    intro s h
    exact ih _ (hf s a h)

theorem accumIncomeStep_ok (b : Bool) (st : AggState) (x : MonthEntry) (h : stateOk st) :
    stateOk (accumIncomeStep b st x) := by
  unfold accumIncomeStep
  cases b
  · exact ⟨h.1, h.2.1, h.2.2.1,
      cellMapAdd_ok _ _ _ (dualDelta_ok x.amount x.currency) _ h.2.2.2⟩
  · exact ⟨h.1, h.2.1,
      cellMapAdd_ok _ _ _ (dualDelta_ok x.amount x.currency) _ h.2.2.1, h.2.2.2⟩

theorem accumCategoryStep_ok (b : Bool) (cat : String) (st : AggState) (x : MonthEntry)
    (h : stateOk st) : stateOk (accumCategoryStep b cat st x) := by
  unfold accumCategoryStep
  cases b
  · exact ⟨h.1, groupAdd_ok _ _ _ _ (dualDelta_ok x.amount x.currency) _ h.2.1, h.2.2.1, h.2.2.2⟩
  · exact ⟨groupAdd_ok _ _ _ _ (dualDelta_ok x.amount x.currency) _ h.1, h.2.1, h.2.2.1, h.2.2.2⟩

theorem touchCategory_ok (b : Bool) (cat : String) (st : AggState) (h : stateOk st) :
    stateOk (touchCategory b cat st) := by
  unfold touchCategory
  cases b
  · exact ⟨h.1, groupTouch_ok cat _ h.2.1, h.2.2.1, h.2.2.2⟩
  · exact ⟨groupTouch_ok cat _ h.1, h.2.1, h.2.2.1, h.2.2.2⟩

theorem processExpense_ok (ss : Bool) (e : Expense) (st : AggState) (h : stateOk st) :
    stateOk (processExpense ss st e) := by
  unfold processExpense
  by_cases hin : (isCreditNote e || isCharterProfit e) = true
  · rw [if_pos hin]
    exact foldl_preserve stateOk _ (fun s x hs => accumIncomeStep_ok _ s x hs) _ st h
  · rw [if_neg hin]
    cases hb : getBaseExpenseCategory e with
    | none => exact h
    | some baseCategory =>
      exact foldl_preserve stateOk _ (fun s x hs => accumCategoryStep_ok _ _ s x hs) _ _
        (touchCategory_ok _ _ st h)

theorem initAggState_ok : stateOk initAggState :=
  ⟨(fun _ hp => nomatch hp), (fun _ hp => nomatch hp), (fun _ hp => nomatch hp),
   (fun _ hp => nomatch hp)⟩

theorem aggState_ok (expenses : List Expense) (ss ats : Bool) :
    stateOk (aggState expenses ss ats) := by
  unfold aggState
  exact foldl_preserve stateOk _ (fun s x hs => processExpense_ok ss x s hs) _ _ initAggState_ok

theorem lookupCategoryCell_ok (st : AggState) (h : stateOk st) (cs : String × RowSource)
    (mk : MonthKey) : cellOk (lookupCategoryCell st cs mk) := by
  rcases cs with ⟨c, src⟩
  cases src
  · exact cellGet_ok _ _ (groupGet_ok _ _ h.1)
  · exact cellGet_ok _ _ (groupGet_ok _ _ h.2.1)

theorem sum_map_mul_of_ok {α : Type} (u v : α → Rat) (r : Rat) :
    ∀ l : List α, (∀ x ∈ l, v x = u x * r) → (l.map v).sum = (l.map u).sum * r := by
  intro l
  induction l with
  | nil =>
    intro _
    simp
  | cons x t ih =>
    intro h
    simp only [List.map_cons, List.sum_cons]
    rw [h x (List.mem_cons_self x t), ih (fun y hy => h y (List.mem_cons_of_mem x hy))]
    ring

/-! Claim C10. -/

/-- C10: in every cell of the built report matrix — every category row, the
Credit note row, the Charter profit row and the Total row, for every month —
the AED accumulator equals the USD accumulator multiplied by exactly
36735/10000 (= 3.6735), regardless of the mix of USD, AED, EUR or
unrecognized expense currencies accumulated into it. -/
theorem C10_dual_currency_invariant (expenses : List Expense) (yf : String) (ss ats : Bool)
    (cy : Int) (r : Report) (h : exportExcel expenses yf ss ats cy = Except.ok r) :
    (∀ row ∈ r.categoryRows, ∀ c ∈ row.2, c.AED = c.USD * AED_TO_USD) ∧
    (∀ c ∈ r.creditNoteRow, c.AED = c.USD * AED_TO_USD) ∧
    (∀ c ∈ r.charterProfitRow, c.AED = c.USD * AED_TO_USD) ∧
    (∀ c ∈ r.totalRow, c.AED = c.USD * AED_TO_USD) := by
  have hr := exportExcel_ok_eq expenses yf ss ats cy r h
  subst hr
  have hst := aggState_ok expenses ss ats
  refine ⟨?_, ?_, ?_, ?_⟩
  · intro row hrow c hc
    rcases List.mem_map.mp hrow with ⟨cs, _, hF⟩
    rw [← hF] at hc
    rcases List.mem_map.mp hc with ⟨mk, _, hmk⟩
    rw [← hmk]
    exact lookupCategoryCell_ok _ hst cs mk
  · intro c hc
    rcases List.mem_map.mp hc with ⟨mk, _, hmk⟩
    rw [← hmk]
    exact cellGet_ok _ _ hst.2.2.1
  · intro c hc
    rcases List.mem_map.mp hc with ⟨mk, _, hmk⟩
    rw [← hmk]
    exact cellGet_ok _ _ hst.2.2.2
  · intro c hc
    rcases List.mem_map.mp hc with ⟨mk, _, hmk⟩
    rw [← hmk]
    show (sumCells _ _ mk).2 - (cellGet _ mk).AED =
      ((sumCells _ _ mk).1 - (cellGet _ mk).USD) * AED_TO_USD
    have hsum : (sumCells (aggState expenses ss ats) (allCategoriesSorted (aggState expenses ss ats)) mk).2 =
        (sumCells (aggState expenses ss ats) (allCategoriesSorted (aggState expenses ss ats)) mk).1 *
          AED_TO_USD := by
      rw [sumCells_eq]
      exact sum_map_mul_of_ok _ _ _ _ (fun cs _ => lookupCategoryCell_ok _ hst cs mk)
    have hcn : (cellGet (aggState expenses ss ats).creditNote mk).AED =
        (cellGet (aggState expenses ss ats).creditNote mk).USD * AED_TO_USD :=
      cellGet_ok _ _ hst.2.2.1
    rw [hsum, hcn]
    ring

theorem C10_dual_currency_invariant_witness :
    (∀ row ∈ c1wReport.categoryRows, ∀ c ∈ row.2, c.AED = c.USD * AED_TO_USD) ∧
    (∀ c ∈ c1wReport.creditNoteRow, c.AED = c.USD * AED_TO_USD) ∧
    (∀ c ∈ c1wReport.charterProfitRow, c.AED = c.USD * AED_TO_USD) ∧
    (∀ c ∈ c1wReport.totalRow, c.AED = c.USD * AED_TO_USD) :=
  C10_dual_currency_invariant [c1wFuel, c1wCreditNote] "current" false false 2025 c1wReport
    (by decide)

/-! Lemmas for claim C6: characterization of the two ATS marking passes. -/

theorem foldl_pass1 (x : Int) :
    ∀ (l : List Expense) (s : Int → Bool),
      (l.foldl (fun s e => if isPeriodBeforeOctober2025 e then addId s e.id else s) s) x =
        (s x || l.any (fun e => isPeriodBeforeOctober2025 e && x == e.id)) := by
  intro l
  induction l with
  | nil =>
    intro s
    simp
  | cons e t ih =>
    intro s
    simp only [List.foldl_cons, List.any_cons]
    by_cases he : isPeriodBeforeOctober2025 e
    · rw [if_pos he, ih, he]
      unfold addId
      cases s x <;> cases hx : (x == e.id) <;>
        cases ht : t.any (fun e => isPeriodBeforeOctober2025 e && x == e.id) <;> simp [hx, ht]
    · rw [if_neg he, ih]
      have he' : isPeriodBeforeOctober2025 e = false := by
        cases h : isPeriodBeforeOctober2025 e
        · rfl
        · exact absurd h he
      rw [he']
      simp

theorem atsPass1_eq (l : List Expense) (x : Int) :
    atsPass1 l x = l.any (fun e => isPeriodBeforeOctober2025 e && x == e.id) := by
  unfold atsPass1
  rw [foldl_pass1]
  simp

theorem foldl_addId (x : Int) :
    ∀ (fl : List Expense) (s : Int → Bool),
      (fl.foldl (fun s f => addId s f.id) s) x = (s x || fl.any (fun f => x == f.id)) := by
  intro fl
  induction fl with
  | nil =>
    intro s
    simp
  | cons f t ih =>
    intro s
    simp only [List.foldl_cons, List.any_cons]
    rw [ih]
    unfold addId
    cases s x <;> cases hx : (x == f.id) <;>
      cases ht : t.any (fun f => x == f.id) <;> simp [hx, ht]

theorem markRelated_mono (allExpenses : List Expense) (s : Int → Bool) (e : Expense) (x : Int)
    (h : s x = true) : markRelated allExpenses s e x = true := by
  unfold markRelated
  by_cases hse : s e.id
  · rw [if_pos hse, foldl_addId, h]
    simp
  · rw [if_neg hse]
    exact h

theorem atsPass2_mono (allExpenses : List Expense) (x : Int) :
    ∀ (l : List Expense) (s : Int → Bool), s x = true →
      (l.foldl (markRelated allExpenses) s) x = true := by
  intro l
  induction l with
  | nil =>
    intro s h
    exact h
  | cons e t ih =>
    intro s h
    exact ih _ (markRelated_mono allExpenses s e x h)

theorem atsPass2_marks (allExpenses : List Expense) (me f : Expense)
    (hfl : f ∈ findRelatedDisbursementFees me allExpenses) :
    ∀ (l : List Expense) (s : Int → Bool), me ∈ l → s me.id = true →
      (l.foldl (markRelated allExpenses) s) f.id = true := by
  intro l
  induction l with
  | nil =>
    intro s hE _
    cases hE
  | cons e t ih =>
    intro s hE hsE
    rcases List.mem_cons.mp hE with hEe | hEt
    · subst hEe
      simp only [List.foldl_cons]
      have hstep : markRelated allExpenses s me f.id = true := by
        unfold markRelated
        rw [if_pos hsE, foldl_addId]
        have hany : (findRelatedDisbursementFees me allExpenses).any
            (fun g => f.id == g.id) = true :=
          List.any_eq_true.mpr ⟨f, hfl, by simp⟩
        rw [hany]
        simp
      exact atsPass2_mono allExpenses f.id t _ hstep
    · simp only [List.foldl_cons]
      exact ih _ hEt (markRelated_mono allExpenses s e me.id hsE)

theorem eq_of_mem_of_id_eq :
    ∀ (l : List Expense), (l.map (fun e => e.id)).Nodup →
      ∀ a b : Expense, a ∈ l → b ∈ l → a.id = b.id → a = b := by
  intro l
  induction l with
  | nil =>
    intro _ a b ha _ _
    cases ha
  | cons x t ih =>
    intro hnd a b ha hb hid
    simp only [List.map_cons, List.nodup_cons] at hnd
    rcases List.mem_cons.mp ha with ha1 | ha1 <;> rcases List.mem_cons.mp hb with hb1 | hb1
    · rw [ha1, hb1]
    · exfalso
      apply hnd.1
      exact List.mem_map.mpr ⟨b, hb1, by rw [← hid, ha1]⟩
    · exfalso
      apply hnd.1
      exact List.mem_map.mpr ⟨a, ha1, by rw [hid, hb1]⟩
    · exact ih hnd.2 a b ha1 hb1 hid

theorem optFieldMatch_eq {α : Type} [DecidableEq α] (a b : Option α) :
    optFieldMatch a b = true ↔ b = a := by
  cases a <;> simp [optFieldMatch]

theorem relatedFeeMatch_trans (a b c : Expense)
    (h1 : relatedFeeMatch a b = true) (h2 : relatedFeeMatch b c = true) :
    relatedFeeMatch a c = true := by
  unfold relatedFeeMatch at h1 h2 ⊢
  simp only [Bool.and_eq_true] at h1 h2 ⊢
  obtain ⟨⟨⟨hi1, hf1⟩, hp1⟩, hl1⟩ := h1
  obtain ⟨⟨⟨hi2, hf2⟩, hp2⟩, hl2⟩ := h2
  refine ⟨⟨⟨?_, ?_⟩, ?_⟩, ?_⟩
  · rw [optFieldMatch_eq] at hi1 hi2 ⊢
    rw [hi2, hi1]
  · rw [optFieldMatch_eq] at hf1 hf2 ⊢
    rw [hf2, hf1]
  · unfold periodMatch at hp1 hp2 ⊢
    cases hps : a.exp_period_start with
    | some ps =>
      cases hpe : a.exp_period_end with
      | some pe =>
        rw [hps, hpe] at hp1
        have hp1' : (b.exp_period_start == some ps && b.exp_period_end == some pe) = true := hp1
        simp only [Bool.and_eq_true, beq_iff_eq] at hp1'
        rw [hp1'.1, hp1'.2] at hp2
        have hp2' : (c.exp_period_start == some ps && c.exp_period_end == some pe) = true := hp2
        show (c.exp_period_start == some ps && c.exp_period_end == some pe) = true
        exact hp2'
      | none =>
        rw [hps, hpe] at hp1
        have hp1' : (b.exp_period_start == none && b.exp_period_end == none) = true := hp1
        simp only [Bool.and_eq_true, beq_iff_eq] at hp1'
        rw [hp1'.1, hp1'.2] at hp2
        have hp2' : (c.exp_period_start == none && c.exp_period_end == none) = true := hp2
        show (c.exp_period_start == none && c.exp_period_end == none) = true
        exact hp2'
    | none =>
      rw [hps] at hp1
      have hp1' : (b.exp_period_start == none && b.exp_period_end == none) = true := hp1
      simp only [Bool.and_eq_true, beq_iff_eq] at hp1'
      rw [hp1'.1, hp1'.2] at hp2
      have hp2' : (c.exp_period_start == none && c.exp_period_end == none) = true := hp2
      show (c.exp_period_start == none && c.exp_period_end == none) = true
      exact hp2'
  · rw [optFieldMatch_eq] at hl1 hl2 ⊢
    rw [hl2, hl1]

theorem markRelated_good (allExpenses : List Expense)
    (hnd : (allExpenses.map (fun e => e.id)).Nodup)
    (e : Expense) (he : e ∈ allExpenses) (s : Int → Bool) (hs : goodSet allExpenses s) :
    goodSet allExpenses (markRelated allExpenses s e) := by
  unfold markRelated
  by_cases hse : s e.id
  · rw [if_pos hse]
    intro x hx
    rw [foldl_addId] at hx
    rw [Bool.or_eq_true] at hx
    rcases hx with hx | hx
    · exact hs x hx
    · rcases List.any_eq_true.mp hx with ⟨f, hf, hxf⟩
      have hxid : x = f.id := by simpa using hxf
      have hmem := List.mem_filter.mp hf
      have hffee : isDisbursementFee f = true ∧ relatedFeeMatch e f = true := by
        have h2 := hmem.2
        simpa [Bool.and_eq_true] using h2
      rcases hs e.id hse with ⟨ex, hex, hexid, hexspec⟩
      have hee : ex = e := eq_of_mem_of_id_eq allExpenses hnd ex e hex he hexid
      rw [hee] at hexspec
      refine ⟨f, hmem.1, hxid.symm, ?_⟩
      unfold atsExcludedSpec at hexspec ⊢
      rw [Bool.or_eq_true] at hexspec
      rcases hexspec with hcut | hrel
      · rw [Bool.or_eq_true]
        right
        rw [Bool.and_eq_true]
        refine ⟨hffee.1, List.any_eq_true.mpr ⟨e, he, ?_⟩⟩
        simp [hcut, hffee.2]
      · rw [Bool.and_eq_true] at hrel
        rcases List.any_eq_true.mp hrel.2 with ⟨me, hmeMem, hmeProp⟩
        rw [Bool.and_eq_true] at hmeProp
        rw [Bool.or_eq_true]
        right
        rw [Bool.and_eq_true]
        refine ⟨hffee.1, List.any_eq_true.mpr ⟨me, hmeMem, ?_⟩⟩
        simp [hmeProp.1, relatedFeeMatch_trans me e f hmeProp.2 hffee.2]
  · rw [if_neg hse]
    exact hs

theorem atsPass2_good (allExpenses : List Expense)
    (hnd : (allExpenses.map (fun e => e.id)).Nodup) :
    ∀ (l : List Expense), (∀ e ∈ l, e ∈ allExpenses) →
      ∀ s, goodSet allExpenses s → goodSet allExpenses (l.foldl (markRelated allExpenses) s) := by
  intro l
  induction l with
  | nil =>
    intro _ s hs
    exact hs
  | cons e t ih =>
    intro hsub s hs
    exact ih (fun x hx => hsub x (List.mem_cons_of_mem e hx)) _
      (markRelated_good allExpenses hnd e (hsub e (List.mem_cons_self e t)) s hs)

theorem atsPass1_good (allExpenses : List Expense) : goodSet allExpenses (atsPass1 allExpenses) := by
  intro x hx
  rw [atsPass1_eq] at hx
  rcases List.any_eq_true.mp hx with ⟨e, he, hprop⟩
  rw [Bool.and_eq_true] at hprop
  rcases hprop with ⟨hcut, hid⟩
  have hid' : x = e.id := by simpa using hid
  refine ⟨e, he, hid'.symm, ?_⟩
  unfold atsExcludedSpec
  simp [hcut]

/-! Claim C6. -/

/-- C6: with distinct expense ids, the ATS filter removes exactly the
expenses whose `period_start` is strictly before 2025-10-01 (expenses
without a `period_start` are never excluded by the cutoff, by definition of
`isPeriodBeforeOctober2025`) together with every Disbursement-fee expense
related — same invoice, flight, period and place in the sense of
`relatedFeeMatch` — to a cutoff-excluded expense, and passes every other
expense through unchanged, preserving order; in particular a cutoff-excluded
expense and a related disbursement fee are both removed. -/
theorem C6_ats_filter_excludes_exactly (expenses : List Expense)
    (hnd : (expenses.map (fun e => e.id)).Nodup) :
    filterForATS expenses = expenses.filter (fun e => !(atsExcludedSpec expenses e)) ∧
    (∀ me d : Expense, me ∈ expenses → d ∈ expenses →
       isPeriodBeforeOctober2025 me = true → isDisbursementFee d = true →
       relatedFeeMatch me d = true →
       me ∉ filterForATS expenses ∧ d ∉ filterForATS expenses) ∧
    (∀ e ∈ expenses, atsExcludedSpec expenses e = false → e ∈ filterForATS expenses) := by
  have hmain : filterForATS expenses =
      expenses.filter (fun e => !(atsExcludedSpec expenses e)) := by
    unfold filterForATS
    apply List.filter_congr
    intro e he
    suffices h : (atsPass2 expenses (atsPass1 expenses)) e.id = atsExcludedSpec expenses e by
      rw [h]
    cases hspec : atsExcludedSpec expenses e with
    | true =>
      show (expenses.foldl (markRelated expenses) (atsPass1 expenses)) e.id = true
      unfold atsExcludedSpec at hspec
      rw [Bool.or_eq_true] at hspec
      rcases hspec with hcut | hrel
      · apply atsPass2_mono
        rw [atsPass1_eq]
        exact List.any_eq_true.mpr ⟨e, he, by simp [hcut]⟩
      · rw [Bool.and_eq_true] at hrel
        rcases hrel with ⟨hfee, hany⟩
        rcases List.any_eq_true.mp hany with ⟨me, hme, hmeProp⟩
        rw [Bool.and_eq_true] at hmeProp
        rcases hmeProp with ⟨hmeCut, hmeRel⟩
        have hmem : e ∈ findRelatedDisbursementFees me expenses := by
          unfold findRelatedDisbursementFees
          exact List.mem_filter.mpr ⟨he, by simp [hfee, hmeRel]⟩
        apply atsPass2_marks expenses me e hmem expenses _ hme
        rw [atsPass1_eq]
        exact List.any_eq_true.mpr ⟨me, hme, by simp [hmeCut]⟩
    | false =>
      cases hmk : (atsPass2 expenses (atsPass1 expenses)) e.id with
      | false => rfl
      | true =>
        exfalso
        have hgood : goodSet expenses (atsPass2 expenses (atsPass1 expenses)) := by
          show goodSet expenses (expenses.foldl (markRelated expenses) (atsPass1 expenses))
          exact atsPass2_good expenses hnd expenses (fun x hx => hx) _ (atsPass1_good expenses)
        rcases hgood e.id hmk with ⟨ex, hex, hexid, hexspec⟩
        have hee : ex = e := eq_of_mem_of_id_eq expenses hnd ex e hex he hexid
        rw [hee] at hexspec
        rw [hexspec] at hspec
        cases hspec
  refine ⟨hmain, ?_, ?_⟩
  · intro me d hmeMem hdMem hmeCut hdFee hdRel
    constructor
    · rw [hmain]
      intro hmem
      have h2 := (List.mem_filter.mp hmem).2
      have hsp : atsExcludedSpec expenses me = true := by
        unfold atsExcludedSpec
        simp [hmeCut]
      rw [hsp] at h2
      cases h2
    · rw [hmain]
      intro hmem
      have h2 := (List.mem_filter.mp hmem).2
      have hsp : atsExcludedSpec expenses d = true := by
        unfold atsExcludedSpec
        rw [Bool.or_eq_true]
        right
        rw [Bool.and_eq_true]
        exact ⟨hdFee, List.any_eq_true.mpr ⟨me, hmeMem, by simp [hmeCut, hdRel]⟩⟩
      rw [hsp] at h2
      cases h2
  · intro e he hspec
    rw [hmain]
    exact List.mem_filter.mpr ⟨he, by rw [hspec]; rfl⟩

theorem C6_ats_filter_excludes_exactly_witness :
    (c6wExcluded ∉ filterForATS [c6wExcluded, c6wFee, c6wKept] ∧
     c6wFee ∉ filterForATS [c6wExcluded, c6wFee, c6wKept]) ∧
    c6wKept ∈ filterForATS [c6wExcluded, c6wFee, c6wKept] :=
  ⟨(C6_ats_filter_excludes_exactly [c6wExcluded, c6wFee, c6wKept] (by decide)).2.1
      c6wExcluded c6wFee (by decide) (by decide) (by decide) (by decide) (by decide),
   (C6_ats_filter_excludes_exactly [c6wExcluded, c6wFee, c6wKept] (by decide)).2.2
      c6wKept (by decide) (by decide)⟩

end

end JetFinances
